import Mathlib

/-
  Verification of the MTGLeague tournament data model
  (shallow embedding of src/mtgleague/models.py).

  Dates are modelled as natural numbers (ordinal days), database rows as
  Lean structures, and the SQLAlchemy queries as functions over explicit
  lists of rows.  Python code that can raise at runtime is embedded with
  `Except MError`, where `MError` distinguishes the generic runtime faults
  the reference actually raises (AttributeError on a `None` dereference,
  ZeroDivisionError) from the explicit error taxonomy the specification
  prescribes (EmptyCollectionError, NoMatchesError, ...).
-/

namespace MTG

/-- Error codomain for fallible operations: the first two are the generic
runtime faults the reference code raises; the rest are the explicit,
caller-recoverable failures named by the specification's error taxonomy. -/
inductive MError where
  | attributeError
  | zeroDivisionError
  | emptyCollectionError
  | noMatchesError
  | duplicateMembershipError
deriving DecidableEq, Repr

deriving instance DecidableEq for Except

/-- Stage row: `event_id`, `start_date`, `end_date` columns (models.py,
class Stage).  Dates are ordinal days. -/
structure Stage where
  event_id : Nat
  start_date : Nat
  end_date : Nat
deriving DecidableEq, Repr

/-- Event row together with its stage collection (models.py, class Event;
the lazy `stages` relationship becomes an explicit list of child rows). -/
structure Event where
  name : String
  league_id : Nat
  stages : List Stage
deriving DecidableEq, Repr

/-- League row (models.py, class League): `id`, unique `name`,
`creator_id`, `creation_date` columns. -/
structure League where
  id : Nat
  name : String
  creator_id : Nat
  creation_date : Nat
deriving DecidableEq, Repr

/-- Membership row (models.py, class Membership): links a user to a league
with `moderator` and `owner` flags. -/
structure Membership where
  user_id : Nat
  league_id : Nat
  moderator : Bool
  owner : Bool
deriving DecidableEq, Repr

/-- Match row (models.py, class Match): two participant references,
optional winner/loser references, and the three game counters.  The
`timestamp` column is set to the wall clock on every `add_results` call and
plays no role in any verified property, so it is elided. -/
structure Match where
  p1_id : Nat
  p2_id : Nat
  winner_id : Option Nat
  loser_id : Option Nat
  p1_wins : Nat
  p2_wins : Nat
  draws : Nat
deriving DecidableEq, Repr

/-- `Match.add_results` (models.py lines 160-174): stores the three game
counters and then runs two INDEPENDENT `if` statements in sequence — first
`if p1_wins >= 2` sets participant1 as winner, then `if p2_wins >= 2` sets
participant2 as winner (overwriting the first assignment when both fire).
There is no `elif` and no branch ever clears `winner`/`loser`. -/
def Match.add_results (m : Match) (p1_wins p2_wins draws : Nat) : Match :=
  let m1 := { m with p1_wins := p1_wins, p2_wins := p2_wins, draws := draws }
  let m2 := if p1_wins ≥ 2 then
      { m1 with winner_id := some m1.p1_id, loser_id := some m1.p2_id }
    else m1
  if p2_wins ≥ 2 then
    { m2 with winner_id := some m2.p2_id, loser_id := some m2.p1_id }
  else m2

/-- Fresh match as built by `Match.__init__(stage, participant1,
participant2)`: result columns unset. -/
def Match.fresh (p1_id p2_id : Nat) : Match :=
  { p1_id := p1_id, p2_id := p2_id, winner_id := none, loser_id := none,
    p1_wins := 0, p2_wins := 0, draws := 0 }

/-- Concrete match between participants 1 and 2, used as test input. -/
def m12 : Match := Match.fresh 1 2

/-- C1, counterexample: at a concrete match between participants 1 and 2,
calling `add_results` with both counters at the threshold (2,2,0) leaves
participant2 — not participant1 — as the winner, refuting the claimed
p1-priority tie-break. -/
theorem add_results_both_thresholds_cex :
    (m12.add_results 2 2 0).winner_id = some m12.p2_id ∧
    (m12.add_results 2 2 0).winner_id ≠ some m12.p1_id ∧
    (m12.add_results 2 2 0).loser_id = some m12.p1_id := by
  decide

/-- C1, amended: whenever both `p1_wins ≥ 2` and `p2_wins ≥ 2`, the second
`if` fires last and overwrites the first, so after the call `winner` is
participant2 and `loser` is participant1 (p2 is preferred, because the two
branches are independent `if` statements, not `if`/`elif`). -/
theorem add_results_both_thresholds (m : Match) (p1w p2w d : Nat)
    (h1 : 2 ≤ p1w) (h2 : 2 ≤ p2w) :
    (m.add_results p1w p2w d).winner_id = some m.p2_id ∧
    (m.add_results p1w p2w d).loser_id = some m.p1_id := by
  simp [Match.add_results, if_pos h1, if_pos h2]

/-- C1, witness for the amended theorem at the concrete match `m12` with
scoreline (2,2,0). -/
theorem add_results_both_thresholds_witness :
    (m12.add_results 2 2 0).winner_id = some m12.p2_id ∧
    (m12.add_results 2 2 0).loser_id = some m12.p1_id :=
  add_results_both_thresholds m12 2 2 0 (by decide) (by decide)

/-- C2, counterexample: resolve the fresh match `m12` with (2,0,0), then
re-invoke `add_results` with the sub-threshold scoreline (1,1,0).  The
winner column still holds participant1: a Resolved match is NOT reverted to
Unplayed, and after this call sequence `winner ≠ null` even though
`p1_wins < 2` and `p2_wins < 2`. -/
theorem add_results_subthreshold_cex :
    ((m12.add_results 2 0 0).add_results 1 1 0).winner_id = some m12.p1_id ∧
    ((m12.add_results 2 0 0).add_results 1 1 0).winner_id ≠ none ∧
    ((m12.add_results 2 0 0).add_results 1 1 0).p1_wins = 1 ∧
    ((m12.add_results 2 0 0).add_results 1 1 0).p2_wins = 1 := by
  decide

/-- C2, amended: a call with `p1_wins < 2` and `p2_wins < 2` overwrites the
three game counters but leaves `winner` and `loser` exactly as they were:
a match that was Unplayed stays Unplayed (winner/loser stay null), and a
match that was already Resolved keeps its previous winner/loser — no call
sequence reverts a Resolved match to Unplayed. -/
theorem add_results_subthreshold (m : Match) (p1w p2w d : Nat)
    (h1 : p1w < 2) (h2 : p2w < 2) :
    (m.add_results p1w p2w d).winner_id = m.winner_id ∧
    (m.add_results p1w p2w d).loser_id = m.loser_id ∧
    (m.winner_id = none → (m.add_results p1w p2w d).winner_id = none) := by
  have h1' : ¬ 2 ≤ p1w := by omega
  have h2' : ¬ 2 ≤ p2w := by omega
  refine ⟨?_, ?_, ?_⟩ <;> simp [Match.add_results, if_neg h1', if_neg h2']

/-- C2, witness for the amended theorem: the fresh match `m12` stays
Unplayed after a (1,1,0) call. -/
theorem add_results_subthreshold_witness :
    (m12.add_results 1 1 0).winner_id = m12.winner_id ∧
    (m12.add_results 1 1 0).loser_id = m12.loser_id ∧
    (m12.winner_id = none → (m12.add_results 1 1 0).winner_id = none) :=
  add_results_subthreshold m12 1 1 0 (by decide) (by decide)

/-- Model of `self.stages.order_by(Stage.start_date).first()`: the member
of the stage list with the smallest `start_date` (stable: the earliest such
row on ties, as a stable ascending sort would yield). -/
def minStartStage (s : Stage) : List Stage → Stage
  | [] => s
  | t :: ts => if t.start_date < s.start_date then minStartStage t ts else minStartStage s ts

/-- Model of `self.stages.order_by(Stage.start_date.desc()).first()`: the
member of the stage list with the largest `start_date`. -/
def maxStartStage (s : Stage) : List Stage → Stage
  | [] => s
  | t :: ts => if s.start_date < t.start_date then maxStartStage t ts else maxStartStage s ts

/-- `Event.get_start_date` (models.py lines 28-30): first stage by
ascending `start_date`, then its `start_date`.  With no stages, `first()`
returns `None` and the attribute access raises AttributeError. -/
def Event.get_start_date (e : Event) : Except MError Nat :=
  match e.stages with
  | [] => .error .attributeError
  | s :: ss => .ok (minStartStage s ss).start_date

/-- `Event.get_end_date` (models.py lines 32-34): first stage by DESCENDING
`start_date` — i.e. the stage that STARTS last — then its `end_date`.
With no stages, AttributeError. -/
def Event.get_end_date (e : Event) : Except MError Nat :=
  match e.stages with
  | [] => .error .attributeError
  | s :: ss => .ok (maxStartStage s ss).end_date

/-- `Event.is_past` (models.py lines 39-41): end date of the
latest-starting stage `<= today`.  `today` is the wall-clock date, passed
explicitly. -/
def Event.is_past (e : Event) (today : Nat) : Except MError Bool :=
  match e.stages with
  | [] => .error .attributeError
  | s :: ss => .ok (decide ((maxStartStage s ss).end_date ≤ today))

/-- `Event.in_progress` (models.py lines 43-46): chained comparison
`first.start_date <= today <= last.end_date`. -/
def Event.in_progress (e : Event) (today : Nat) : Except MError Bool :=
  match e.stages with
  | [] => .error .attributeError
  | s :: ss =>
    .ok (decide ((minStartStage s ss).start_date ≤ today ∧
                 today ≤ (maxStartStage s ss).end_date))

/-- `Event.is_upcoming` (models.py lines 48-50): `today <=
first.start_date`. -/
def Event.is_upcoming (e : Event) (today : Nat) : Except MError Bool :=
  match e.stages with
  | [] => .error .attributeError
  | s :: ss => .ok (decide (today ≤ (minStartStage s ss).start_date))

/-- Spec-side definition, for comparison with `Event.get_end_date`: the
spec's words say the event end is the MAXIMUM `end_date` across stages. -/
def spec_max_end_date (e : Event) : Option Nat :=
  (e.stages.map Stage.end_date).max?

/-- The stage picked by `minStartStage` is a member of the list. -/
lemma minStartStage_mem (s : Stage) (ss : List Stage) :
    minStartStage s ss ∈ s :: ss := by
  induction ss generalizing s with
  | nil => simp [minStartStage]
  | cons t ts ih =>
    simp only [minStartStage]
    rcases (lt_or_ge t.start_date s.start_date) with h | h
    · rw [if_pos h]
      have := ih t
      simp only [List.mem_cons] at this ⊢
      tauto
    · rw [if_neg (by omega)]
      have := ih s
      simp only [List.mem_cons] at this ⊢
      tauto

/-- The stage picked by `minStartStage` has the least `start_date`. -/
lemma minStartStage_le (s : Stage) (ss : List Stage) :
    ∀ t ∈ s :: ss, (minStartStage s ss).start_date ≤ t.start_date := by
  induction ss generalizing s with
  | nil => simp [minStartStage]
  | cons u ts ih =>
    intro t ht
    simp only [List.mem_cons] at ht
    simp only [minStartStage]
    rcases (lt_or_ge u.start_date s.start_date) with h | h
    · rw [if_pos h]
      have hmem := ih u
      rcases ht with rfl | rfl | ht
      · have := hmem u (by simp)
        omega
      · exact hmem t (by simp)
      · exact hmem t (by simp [ht])
    · rw [if_neg (by omega)]
      have hmem := ih s
      rcases ht with rfl | rfl | ht
      · exact hmem t (by simp)
      · have := hmem s (by simp)
        omega
      · exact hmem t (by simp [ht])

/-- The stage picked by `maxStartStage` is a member of the list. -/
lemma maxStartStage_mem (s : Stage) (ss : List Stage) :
    maxStartStage s ss ∈ s :: ss := by
  induction ss generalizing s with
  | nil => simp [maxStartStage]
  | cons t ts ih =>
    simp only [maxStartStage]
    rcases (lt_or_ge s.start_date t.start_date) with h | h
    · rw [if_pos h]
      have := ih t
      simp only [List.mem_cons] at this ⊢
      tauto
    · rw [if_neg (by omega)]
      have := ih s
      simp only [List.mem_cons] at this ⊢
      tauto

/-- The stage picked by `maxStartStage` has the greatest `start_date`. -/
lemma maxStartStage_ge (s : Stage) (ss : List Stage) :
    ∀ t ∈ s :: ss, t.start_date ≤ (maxStartStage s ss).start_date := by
  induction ss generalizing s with
  | nil => simp [maxStartStage]
  | cons u ts ih =>
    intro t ht
    simp only [List.mem_cons] at ht
    simp only [maxStartStage]
    rcases (lt_or_ge s.start_date u.start_date) with h | h
    · rw [if_pos h]
      have hmem := ih u
      rcases ht with rfl | rfl | ht
      · have := hmem u (by simp)
        omega
      · exact hmem t (by simp)
      · exact hmem t (by simp [ht])
    · rw [if_neg (by omega)]
      have hmem := ih s
      rcases ht with rfl | rfl | ht
      · exact hmem t (by simp)
      · have := hmem s (by simp)
        omega
      · exact hmem t (by simp [ht])

/-- Concrete event with two overlapping stages: the first starts on day 0
and ends on day 10, the second starts on day 2 and ends on day 3.  The
maximum end date is 10, but the latest-STARTING stage ends on day 3. -/
def evOverlap : Event :=
  { name := "overlap", league_id := 1,
    stages := [⟨1, 0, 10⟩, ⟨1, 2, 3⟩] }

/-- C3, counterexample: on `evOverlap` the spec-side maximum end date is
10, yet `get_end_date` returns 3 (the end of the latest-starting stage),
so `get_end_date` does not return the maximum `end_date` for every
configuration of overlapping stage ranges. -/
theorem get_end_date_cex :
    spec_max_end_date evOverlap = some 10 ∧
    evOverlap.get_end_date = .ok 3 ∧
    evOverlap.get_end_date ≠ .ok 10 := by
  refine ⟨by decide, by decide, by decide⟩

/-- C3, amended: for an event with at least one stage, `get_start_date`
does return the minimum `start_date` over the stages; `get_end_date`
returns the `end_date` of a stage whose `start_date` is maximal (the
latest-starting stage) — which coincides with the maximum `end_date` only
when that stage also ends last, not for every overlapping configuration. -/
theorem get_dates_characterization (e : Event) (h : e.stages ≠ []) :
    (∃ s, s ∈ e.stages ∧ e.get_start_date = .ok s.start_date ∧
      ∀ t ∈ e.stages, s.start_date ≤ t.start_date) ∧
    (∃ s, s ∈ e.stages ∧ e.get_end_date = .ok s.end_date ∧
      ∀ t ∈ e.stages, t.start_date ≤ s.start_date) := by
  cases hst : e.stages with
  | nil => exact absurd hst h
  | cons s ss =>
    constructor
    · refine ⟨minStartStage s ss, ?_, ?_, ?_⟩
      · exact minStartStage_mem s ss
      · simp [Event.get_start_date, hst]
      · intro t ht
        exact minStartStage_le s ss t ht
    · refine ⟨maxStartStage s ss, ?_, ?_, ?_⟩
      · exact maxStartStage_mem s ss
      · simp [Event.get_end_date, hst]
      · intro t ht
        exact maxStartStage_ge s ss t ht

/-- C3, witness for the amended theorem at the concrete event
`evOverlap`. -/
theorem get_dates_characterization_witness :
    (∃ s, s ∈ evOverlap.stages ∧ evOverlap.get_start_date = .ok s.start_date ∧
      ∀ t ∈ evOverlap.stages, s.start_date ≤ t.start_date) ∧
    (∃ s, s ∈ evOverlap.stages ∧ evOverlap.get_end_date = .ok s.end_date ∧
      ∀ t ∈ evOverlap.stages, t.start_date ≤ s.start_date) :=
  get_dates_characterization evOverlap (by decide)

/-- Concrete event with no stages. -/
def evNoStages : Event := { name := "empty", league_id := 1, stages := [] }

/-- C5: on an event with zero stages, `get_start_date` and `get_end_date`
fail with the generic AttributeError of dereferencing `first() == None` —
a crash, not the explicit caller-recoverable EmptyCollectionError the
claim requires. -/
theorem get_dates_empty_crash :
    evNoStages.get_start_date = .error .attributeError ∧
    evNoStages.get_end_date = .error .attributeError ∧
    evNoStages.get_start_date ≠ .error .emptyCollectionError ∧
    evNoStages.get_end_date ≠ .error .emptyCollectionError := by
  decide

/-- C8: for an event whose stages each satisfy `start_date ≤ end_date`,
with effective start `sd` and effective end `ed`: when `today` differs from
both boundary dates, exactly one of `is_past`, `is_upcoming`, `in_progress`
holds; and on the boundary where the event ends today (`today = ed`), both
`in_progress` and `is_past` hold (both comparisons are inclusive `≤`). -/
theorem event_classification (e : Event) (today sd ed : Nat)
    (hwf : ∀ s ∈ e.stages, s.start_date ≤ s.end_date)
    (hs : e.get_start_date = .ok sd) (he : e.get_end_date = .ok ed) :
    ((today ≠ sd ∧ today ≠ ed) →
      ((e.is_past today = .ok true ∧ e.is_upcoming today = .ok false ∧
          e.in_progress today = .ok false) ∨
       (e.is_past today = .ok false ∧ e.is_upcoming today = .ok true ∧
          e.in_progress today = .ok false) ∨
       (e.is_past today = .ok false ∧ e.is_upcoming today = .ok false ∧
          e.in_progress today = .ok true))) ∧
    (today = ed →
      e.in_progress today = .ok true ∧ e.is_past today = .ok true) := by
  cases hst : e.stages with
  | nil => rw [Event.get_start_date, hst] at hs; cases hs
  | cons s ss =>
    rw [Event.get_start_date, hst] at hs
    rw [Event.get_end_date, hst] at he
    have hsd : (minStartStage s ss).start_date = sd := by
      simpa using hs
    have hed : (maxStartStage s ss).end_date = ed := by
      simpa using he
    have hmem := maxStartStage_mem s ss
    have hle1 : (minStartStage s ss).start_date ≤ (maxStartStage s ss).start_date :=
      minStartStage_le s ss _ hmem
    have hle2 : (maxStartStage s ss).start_date ≤ (maxStartStage s ss).end_date :=
      hwf _ (by rw [hst]; exact hmem)
    constructor
    · rintro ⟨h1, h2⟩
      simp only [Event.is_past, Event.is_upcoming, Event.in_progress, hst,
        Except.ok.injEq, decide_eq_true_eq, decide_eq_false_iff_not]
      omega
    · intro h3
      simp only [Event.is_past, Event.in_progress, hst,
        Except.ok.injEq, decide_eq_true_eq]
      omega

/-- Concrete single-stage event running from day 2 to day 4, used as the
classification witness input. -/
def evSingle : Event :=
  { name := "single", league_id := 1, stages := [⟨1, 2, 4⟩] }

/-- C8, witness: on `evSingle` (start 2, end 4), day 10 lies on no boundary
and is classified as exactly past; day 4 is the end boundary and is both
in-progress and past. -/
theorem event_classification_witness :
    ((evSingle.is_past 10 = .ok true ∧ evSingle.is_upcoming 10 = .ok false ∧
        evSingle.in_progress 10 = .ok false) ∨
     (evSingle.is_past 10 = .ok false ∧ evSingle.is_upcoming 10 = .ok true ∧
        evSingle.in_progress 10 = .ok false) ∨
     (evSingle.is_past 10 = .ok false ∧ evSingle.is_upcoming 10 = .ok false ∧
        evSingle.in_progress 10 = .ok true)) ∧
    (evSingle.in_progress 4 = .ok true ∧ evSingle.is_past 4 = .ok true) :=
  ⟨(event_classification evSingle 10 2 4 (by decide) (by decide) (by decide)).1
      ⟨by decide, by decide⟩,
   (event_classification evSingle 4 2 4 (by decide) (by decide) (by decide)).2 rfl⟩

/-- Participant row (models.py, class Participant): links a user to an
event. -/
structure Participant where
  id : Nat
  user_id : Nat
  event_id : Nat
deriving DecidableEq, Repr

/-- `Participant.get_matches` (models.py line 200-201): all matches in the
match table where this participant is p1 or p2.  The global
`Match.query` becomes an explicit table `db`. -/
def Participant.get_matches (p : Participant) (db : List Match) : List Match :=
  db.filter fun m => m.p1_id == p.id || m.p2_id == p.id

/-- `Participant.get_matches_count` (models.py lines 203-204). -/
def Participant.get_matches_count (p : Participant) (db : List Match) : Nat :=
  (db.filter fun m => m.p1_id == p.id || m.p2_id == p.id).length

/-- `Participant.get_matches_won_count` (models.py lines 209-210): count of
matches whose `winner_id` equals this participant's id. -/
def Participant.get_matches_won_count (p : Participant) (db : List Match) : Nat :=
  (db.filter fun m => m.winner_id == some p.id).length

/-- `Participant.get_matches_lost_count` (models.py lines 215-216). -/
def Participant.get_matches_lost_count (p : Participant) (db : List Match) : Nat :=
  (db.filter fun m => m.loser_id == some p.id).length

/-- `Participant.match_win_percentage` (models.py lines 218-221):
`matches_won / matches_total` with Python true division — when the
participant has no matches the denominator is 0 and the division raises
ZeroDivisionError; there is no guard. -/
def Participant.match_win_percentage (p : Participant) (db : List Match) :
    Except MError ℚ :=
  let matches_won := p.get_matches_won_count db
  let matches_total := p.get_matches_count db
  if matches_total = 0 then .error .zeroDivisionError
  else .ok ((matches_won : ℚ) / (matches_total : ℚ))

/-- Concrete participant with id 1, used as test input. -/
def pOne : Participant := ⟨1, 10, 1⟩

/-- C4: a participant with zero recorded matches makes
`match_win_percentage` raise the unguarded ZeroDivisionError of the bare
division — not the explicit caller-recoverable NoMatchesError the claim
requires. -/
theorem match_win_percentage_zero_crash :
    pOne.match_win_percentage [] = .error .zeroDivisionError ∧
    pOne.match_win_percentage [] ≠ .error .noMatchesError := by
  decide

/-- Well-formedness of a match row, as assumed by the claim: the two
participants are distinct, winner and loser — when set — each reference one
of the match's own two participants, and winner and loser are never the
same participant. -/
def Match.wfb (m : Match) : Bool :=
  (m.p1_id != m.p2_id) &&
  (match m.winner_id with
   | none => true
   | some w => w == m.p1_id || w == m.p2_id) &&
  (match m.loser_id with
   | none => true
   | some l => l == m.p1_id || l == m.p2_id) &&
  (match m.winner_id, m.loser_id with
   | some w, some l => w != l
   | _, _ => true)

/-- A single well-formed match contributes at most 1 to won + lost, and
whenever it contributes there it also counts as one of the participant's
matches. -/
lemma match_indicator_le (m : Match) (pid : Nat) (h : m.wfb = true) :
    ((if m.winner_id == some pid then 1 else 0) +
     (if m.loser_id == some pid then 1 else 0) : Nat) ≤
    (if m.p1_id == pid || m.p2_id == pid then 1 else 0) := by
  rcases m with ⟨p1, p2, w, l, a, b, c⟩
  simp only [Match.wfb, Bool.and_eq_true, bne_iff_ne, ne_eq] at h
  cases w <;> cases l <;>
    simp_all only [Bool.or_eq_true, beq_iff_eq, Option.some.injEq] <;>
    split_ifs <;> simp_all <;> omega

/-- Length of a filtered cons, written with an indicator for the head. -/
lemma filter_length_cons (p : Match → Bool) (m : Match) (ms : List Match) :
    (List.filter p (m :: ms)).length =
      (if p m then 1 else 0) + (List.filter p ms).length := by
  rw [List.filter_cons]
  split
  · simp; omega
  · simp

/-- C7: assuming every match in the table is well-formed (winner and loser,
when set, are that match's own two distinct participants), a participant's
won count plus lost count never exceeds the participant's match count. -/
theorem won_lost_le_matches (p : Participant) (db : List Match)
    (hwf : ∀ m ∈ db, m.wfb = true) :
    p.get_matches_won_count db + p.get_matches_lost_count db ≤
      p.get_matches_count db := by
  induction db with
  | nil => simp [Participant.get_matches_won_count,
      Participant.get_matches_lost_count, Participant.get_matches_count]
  | cons m ms ih =>
    have hm : m.wfb = true := hwf m (by simp)
    have hms : ∀ x ∈ ms, x.wfb = true := fun x hx => hwf x (by simp [hx])
    have hind := match_indicator_le m p.id hm
    have hrec := ih hms
    simp only [Participant.get_matches_won_count,
      Participant.get_matches_lost_count, Participant.get_matches_count,
      filter_length_cons] at hrec ⊢
    omega

/-- Resolved match between participants 1 and 2 with winner 1, plus an
unresolved match between participants 1 and 3: a concrete match table. -/
def dbTwoMatches : List Match :=
  [{ p1_id := 1, p2_id := 2, winner_id := some 1, loser_id := some 2,
     p1_wins := 2, p2_wins := 0, draws := 0 },
   Match.fresh 1 3]

/-- C7, witness at the concrete table `dbTwoMatches` for participant 1:
one win plus zero losses is at most two matches. -/
theorem won_lost_le_matches_witness :
    pOne.get_matches_won_count dbTwoMatches +
      pOne.get_matches_lost_count dbTwoMatches ≤
      pOne.get_matches_count dbTwoMatches :=
  won_lost_le_matches pOne dbTwoMatches (by decide)

/-- `League.add_member` (models.py lines 80-83): constructs
`Membership(user, self)` — defaults `moderator=False, owner=False` — and
adds it to the session unconditionally: there is no duplicate check. -/
def League.add_member (db : List Membership) (league_id user_id : Nat) :
    List Membership :=
  db ++ [{ user_id := user_id, league_id := league_id,
           moderator := false, owner := false }]

/-- Model of `Membership.query.filter(and_(Membership.league_id == self.id,
Membership.user == user)).first()`: the first membership row for the
(league, user) pair. -/
def find_membership (db : List Membership) (league_id user_id : Nat) :
    Option Membership :=
  db.find? fun m => m.league_id == league_id && m.user_id == user_id

/-- `League.add_moderator` (models.py lines 85-89): look up the membership
for (league, user), set `moderator = True` and `owner = False` on it.  When
no membership exists, `first()` is `None` and the attribute assignment
raises AttributeError. -/
def League.add_moderator : List Membership → Nat → Nat →
    Except MError (List Membership)
  | [], _, _ => .error .attributeError
  | m :: ms, league_id, user_id =>
    if m.league_id == league_id && m.user_id == user_id then
      .ok ({ m with moderator := true, owner := false } :: ms)
    else
      match League.add_moderator ms league_id user_id with
      | .ok ds => .ok (m :: ds)
      | .error e => .error e

/-- `League.add_owner` (models.py lines 91-95): same lookup, sets
`moderator = False` and `owner = True`. -/
def League.add_owner : List Membership → Nat → Nat →
    Except MError (List Membership)
  | [], _, _ => .error .attributeError
  | m :: ms, league_id, user_id =>
    if m.league_id == league_id && m.user_id == user_id then
      .ok ({ m with moderator := false, owner := true } :: ms)
    else
      match League.add_owner ms league_id user_id with
      | .ok ds => .ok (m :: ds)
      | .error e => .error e

/-- C6: calling `add_member` twice for the same (league, user) silently
creates a second Membership row — no DuplicateMembershipError is raised,
the duplicate is simply persisted.  Both rows are created with
`moderator = false` and `owner = false` (that half of the claim matches
the code). -/
theorem add_member_silent_duplicate :
    (League.add_member (League.add_member [] 7 3) 7 3).length = 2 ∧
    ((League.add_member (League.add_member [] 7 3) 7 3).filter
        fun m => m.league_id == 7 && m.user_id == 3).length = 2 ∧
    (League.add_member (League.add_member [] 7 3) 7 3).all
        (fun m => !m.moderator && !m.owner) = true := by
  decide

/-- After `add_moderator`, the membership row found for (league, user)
carries `moderator = true` and `owner = false`. -/
lemma add_moderator_flags (db db' : List Membership) (league_id user_id : Nat)
    (h : League.add_moderator db league_id user_id = .ok db') :
    (find_membership db' league_id user_id).map
      (fun m => (m.moderator, m.owner)) = some (true, false) := by
  induction db generalizing db' with
  | nil => cases h
  | cons m ms ih =>
    rw [League.add_moderator] at h
    by_cases hm : (m.league_id == league_id && m.user_id == user_id) = true
    · rw [if_pos hm] at h
      cases h
      simp only [find_membership, List.find?]
      rw [show (({ m with moderator := true, owner := false } :
          Membership).league_id == league_id &&
          ({ m with moderator := true, owner := false } :
          Membership).user_id == user_id) = true from hm]
      simp
    · rw [if_neg hm] at h
      cases hrec : League.add_moderator ms league_id user_id with
      | error e => rw [hrec] at h; cases h
      | ok ds =>
        rw [hrec] at h
        cases h
        simp only [find_membership, List.find?, hm]
        exact ih ds hrec

/-- After `add_owner`, the membership row found for (league, user) carries
`moderator = false` and `owner = true`. -/
lemma add_owner_flags (db db' : List Membership) (league_id user_id : Nat)
    (h : League.add_owner db league_id user_id = .ok db') :
    (find_membership db' league_id user_id).map
      (fun m => (m.moderator, m.owner)) = some (false, true) := by
  induction db generalizing db' with
  | nil => cases h
  | cons m ms ih =>
    rw [League.add_owner] at h
    by_cases hm : (m.league_id == league_id && m.user_id == user_id) = true
    · rw [if_pos hm] at h
      cases h
      simp only [find_membership, List.find?]
      rw [show (({ m with moderator := false, owner := true } :
          Membership).league_id == league_id &&
          ({ m with moderator := false, owner := true } :
          Membership).user_id == user_id) = true from hm]
      simp
    · rw [if_neg hm] at h
      cases hrec : League.add_owner ms league_id user_id with
      | error e => rw [hrec] at h; cases h
      | ok ds =>
        rw [hrec] at h
        cases h
        simp only [find_membership, List.find?, hm]
        exact ih ds hrec

/-- C9: when the user holds a membership in the league (so the lookups
succeed), `add_moderator` leaves that membership with `moderator = true`
AND `owner = false`, and `add_owner` leaves it with `moderator = false` AND
`owner = true`: each role change clears the other flag, so the changed
membership never ends with both flags set. -/
theorem role_change_exclusive (db dbM dbO : List Membership)
    (league_id user_id : Nat)
    (hM : League.add_moderator db league_id user_id = .ok dbM)
    (hO : League.add_owner db league_id user_id = .ok dbO) :
    (find_membership dbM league_id user_id).map
      (fun m => (m.moderator, m.owner)) = some (true, false) ∧
    (find_membership dbO league_id user_id).map
      (fun m => (m.moderator, m.owner)) = some (false, true) ∧
    (find_membership dbM league_id user_id).all
      (fun m => !(m.moderator && m.owner)) = true ∧
    (find_membership dbO league_id user_id).all
      (fun m => !(m.moderator && m.owner)) = true := by
  have h1 := add_moderator_flags db dbM league_id user_id hM
  have h2 := add_owner_flags db dbO league_id user_id hO
  refine ⟨h1, h2, ?_, ?_⟩
  · cases hf : find_membership dbM league_id user_id with
    | none => simp [hf] at h1
    | some m =>
      rw [hf] at h1
      obtain ⟨ha, hb⟩ : m.moderator = true ∧ m.owner = false := by
        simpa using h1
      simp [Option.all, ha, hb]
  · cases hf : find_membership dbO league_id user_id with
    | none => simp [hf] at h2
    | some m =>
      rw [hf] at h2
      obtain ⟨ha, hb⟩ : m.moderator = false ∧ m.owner = true := by
        simpa using h2
      simp [Option.all, ha, hb]

/-- A one-row membership table: user 3 is a plain member of league 7. -/
def dbOneMember : List Membership :=
  [{ user_id := 3, league_id := 7, moderator := false, owner := false }]

/-- C9, witness at the concrete table `dbOneMember`. -/
theorem role_change_exclusive_witness :
    (find_membership (dbOneMember.map fun m =>
        { m with moderator := true, owner := false }) 7 3).map
      (fun m => (m.moderator, m.owner)) = some (true, false) ∧
    (find_membership (dbOneMember.map fun m =>
        { m with moderator := false, owner := true }) 7 3).map
      (fun m => (m.moderator, m.owner)) = some (false, true) ∧
    (find_membership (dbOneMember.map fun m =>
        { m with moderator := true, owner := false }) 7 3).all
      (fun m => !(m.moderator && m.owner)) = true ∧
    (find_membership (dbOneMember.map fun m =>
        { m with moderator := false, owner := true }) 7 3).all
      (fun m => !(m.moderator && m.owner)) = true :=
  role_change_exclusive dbOneMember _ _ 7 3 (by decide) (by decide)

/-- The anonymous actor (models.py, class AnonymousUser): the
unauthenticated current user, carrying no row data. -/
structure AnonymousUser where
deriving DecidableEq, Repr

/-- `AnonymousUser.is_admin` (models.py lines 343-344): always `False`. -/
def AnonymousUser.is_admin (_ : AnonymousUser) : Bool := false

/-- `AnonymousUser.is_anonymous` (models.py lines 346-347): always
`True`. -/
def AnonymousUser.is_anonymous (_ : AnonymousUser) : Bool := true

/-- `AnonymousUser.is_member` (models.py lines 349-350): `False` for every
league. -/
def AnonymousUser.is_member (_ : AnonymousUser) (_ : League) : Bool := false

/-- C10: the anonymous actor is never an admin, always reports itself
anonymous, and is a member of no league. -/
theorem anonymous_user_capabilities (a : AnonymousUser) (league : League) :
    a.is_admin = false ∧ a.is_anonymous = true ∧
    a.is_member league = false :=
  ⟨rfl, rfl, rfl⟩

end MTG
